import Mathlib

/-!
Verification of the roxy host-management agent's command-dispatch protocol and
network-configuration merge engine, as a shallow embedding of the Rust sources
(`src/common/interface.rs`, `src/root/ifconfig.rs`, `src/root/task.rs`,
`src/main.rs`) into Lean. Rust `HashMap`s are modelled as association lists,
machine integers as `Nat`, fallible code as `Except`, and the filesystem / OS
boundary as explicit inputs (a document loaded from disk becomes a function
argument; the outcome of an external serializer becomes an `Option` argument).
-/

namespace Roxy

/-! ### String ordering

Rust sorts interface names with `String::cmp` (byte-lexicographic). Lean's
built-in `String` order does not reduce in the kernel, so we model the order
as an executable lexicographic comparison on the character list. -/

/-- Lexicographic `≤` on character lists, comparing code points. -/
def charListLe : List Char → List Char → Bool
  | [], _ => true
  | _ :: _, [] => false
  | a :: as, b :: bs =>
    if a.toNat < b.toNat then true
    else if b.toNat < a.toNat then false
    else charListLe as bs

/-- Byte/codepoint-lexicographic `≤` on strings, the order used by Rust's
`sort_by(|a, b| a.0.cmp(&b.0))`. -/
def strLe (a b : String) : Bool :=
  charListLe a.data b.data

theorem charListLe_total (a b : List Char) : (charListLe a b || charListLe b a) = true := by
  induction a generalizing b with
  | nil => simp [charListLe]
  | cons x xs ih =>
    cases b with
    | nil => simp [charListLe]
    | cons y ys =>
      simp only [charListLe]
      rcases Nat.lt_trichotomy x.toNat y.toNat with h | h | h
      · rw [if_pos h]
        simp
      · rw [if_neg (by omega), if_neg (by omega), if_neg (by omega), if_neg (by omega)]
        exact ih ys
      · rw [if_neg (by omega), if_pos h, if_pos h]
        rfl

theorem charListLe_trans (a b c : List Char) (hab : charListLe a b = true)
    (hbc : charListLe b c = true) : charListLe a c = true := by
  induction a generalizing b c with
  | nil => simp [charListLe]
  | cons x xs ih =>
    cases b with
    | nil => simp [charListLe] at hab
    | cons y ys =>
      cases c with
      | nil => simp [charListLe] at hbc
      | cons z zs =>
        simp only [charListLe] at hab hbc ⊢
        rcases Nat.lt_trichotomy x.toNat y.toNat with h1 | h1 | h1
        · rcases Nat.lt_trichotomy y.toNat z.toNat with h2 | h2 | h2
          · rw [if_pos (Nat.lt_trans h1 h2)]
          · rw [if_pos (h2 ▸ h1)]
          · rw [if_neg (by omega), if_pos h2] at hbc
            simp at hbc
        · rw [if_neg (by omega), if_neg (by omega)] at hab
          rcases Nat.lt_trichotomy y.toNat z.toNat with h2 | h2 | h2
          · rw [if_pos (show x.toNat < z.toNat by omega)]
          · rw [if_neg (by omega), if_neg (by omega)] at hbc
            rw [if_neg (by omega), if_neg (by omega)]
            exact ih ys zs hab hbc
          · rw [if_neg (by omega), if_pos h2] at hbc
            simp at hbc
        · rw [if_neg (by omega), if_pos h1] at hab
          simp at hab

theorem strLe_total (a b : String) : (strLe a b || strLe b a) = true :=
  charListLe_total a.data b.data

theorem strLe_trans (a b c : String) (hab : strLe a b = true) (hbc : strLe b c = true) :
    strLe a c = true :=
  charListLe_trans a.data b.data c.data hab hbc

/-! ### Data model (`src/common/interface.rs`)

`Nic` is one interface's declared configuration; `NicOutput` is its external
projection. The `HashMap<String, Vec<String>>` of nameservers is modelled as
an association list. -/

/-- Rust `Nic` (src/common/interface.rs): one network interface record. -/
structure Nic where
  addresses : Option (List String)
  dhcp4 : Option Bool
  gateway4 : Option String
  nameservers : Option (List (String × List String))
  optional : Option Bool
deriving DecidableEq, Repr

/-- Rust `Nic::new`. -/
def Nic.new (addresses : Option (List String)) (dhcp4 : Option Bool)
    (gateway4 : Option String) (nameservers : Option (List (String × List String)))
    (optional : Option Bool) : Nic :=
  ⟨addresses, dhcp4, gateway4, nameservers, optional⟩

/-- Rust `NicOutput` (src/common/interface.rs): the flattened external projection. -/
structure NicOutput where
  addresses : Option (List String)
  dhcp4 : Option Bool
  gateway4 : Option String
  nameservers : Option (List String)
deriving DecidableEq, Repr

/-- Lookup in an association list modelling a Rust `HashMap` (`get`). -/
def assocGet {β : Type} : List (String × β) → String → Option β
  | [], _ => none
  | (k, v) :: rest, key => if k = key then some v else assocGet rest key

/-- Rust `NicOutput::to` (src/common/interface.rs): converts the projection into a
`Nic`, storing the nameserver list under the `"addresses"` key and an empty
`"search"` key, and leaving `optional` unset. -/
def NicOutput.to (s : NicOutput) : Nic :=
  let nameservers :=
    match s.nameservers with
    | some nm => some [("addresses", nm), ("search", ([] : List String))]
    | none => none
  { addresses := s.addresses
    dhcp4 := s.dhcp4
    gateway4 := s.gateway4
    nameservers := nameservers
    optional := none }

/-- Rust `NicOutput::from` (src/common/interface.rs): recovers the projection from a
`Nic`, reading the nameserver list back from the `"addresses"` key. (`from` is
a Lean keyword, hence the name `fromNic`.) -/
def NicOutput.fromNic (nic : Nic) : NicOutput :=
  let nameservers :=
    match nic.nameservers with
    | some nm => assocGet nm "addresses"
    | none => none
  { addresses := nic.addresses
    dhcp4 := nic.dhcp4
    gateway4 := nic.gateway4
    nameservers := nameservers }

/-! ### Command taxonomy and dispatch (`src/common.rs`, `src/root/task.rs`) -/

/-- Rust `SubCommand` (src/common.rs): the shared verb vocabulary. -/
inductive SubCommand where
  | add
  | delete
  | disable
  | enable
  | get
  | init
  | list
  | set
  | setOsVersion
  | setProductVersion
  | status
  | update
deriving DecidableEq, Repr

/-- Rust `Node` (src/common.rs): the command kind sent by the caller. -/
inductive Node where
  | hostname (cmd : SubCommand)
  | interface (cmd : SubCommand)
  | ntp (cmd : SubCommand)
  | powerOff
  | reboot
  | gracefulReboot
  | gracefulPowerOff
  | service (cmd : SubCommand)
  | sshd (cmd : SubCommand)
  | syslog (cmd : SubCommand)
  | ufw (cmd : SubCommand)
  | version (cmd : SubCommand)
deriving DecidableEq, Repr

/-- Rust `NodeRequest` (src/common.rs): command kind plus opaque serialized argument
bytes (bytes modelled as `Nat`s). -/
structure NodeRequest where
  kind : Node
  arg : List Nat
deriving DecidableEq, Repr

/-- Rust `Task` (src/root/task.rs): the privileged process's decoded command. -/
inductive Task where
  | hostname (cmd : SubCommand) (arg : String)
  | interface (cmd : SubCommand) (arg : String)
  | ntp (cmd : SubCommand) (arg : String)
  | powerOff (arg : String)
  | reboot (arg : String)
  | gracefulReboot (arg : String)
  | gracefulPowerOff (arg : String)
  | service (cmd : SubCommand) (arg : String)
  | sshd (cmd : SubCommand) (arg : String)
  | syslog (cmd : SubCommand) (arg : String)
  | ufw (cmd : SubCommand) (arg : String)
  | version (cmd : SubCommand) (arg : String)
deriving DecidableEq, Repr

def OKAY : String := "Ok"
def ERR_INVALID_COMMAND : String := "invalid command"
def ERR_FAIL : String := "fail"
def ERR_MESSAGE_TOO_LONG : String := "message too long"
def ERR_PARSE_FAIL : String := "fail to serialize response message"

/-- Identifies which resource handler `Task::execute` routes a task to. -/
inductive Handler where
  | poweroffH
  | rebootH
  | gracefulRebootH
  | gracefulPoweroffH
  | hostnameH (cmd : SubCommand)
  | interfaceH (cmd : SubCommand)
  | ntpH (cmd : SubCommand)
  | sshdH (cmd : SubCommand)
  | syslogH (cmd : SubCommand)
  | versionH (cmd : SubCommand)
  | serviceH (cmd : SubCommand)
deriving DecidableEq, Repr

/-- The handler-selection match of `Task::execute` (src/root/task.rs, Linux
target): every variant except `Ufw` routes to its resource handler; `Ufw`
falls through the wildcard arm to `Err(ERR_INVALID_COMMAND)` without any
handler being invoked. -/
def Task.dispatch : Task → Except String Handler
  | .powerOff _ => .ok .poweroffH
  | .reboot _ => .ok .rebootH
  | .gracefulReboot _ => .ok .gracefulRebootH
  | .gracefulPowerOff _ => .ok .gracefulPoweroffH
  | .hostname cmd _ => .ok (.hostnameH cmd)
  | .interface cmd _ => .ok (.interfaceH cmd)
  | .ntp cmd _ => .ok (.ntpH cmd)
  | .sshd cmd _ => .ok (.sshdH cmd)
  | .syslog cmd _ => .ok (.syslogH cmd)
  | .version cmd _ => .ok (.versionH cmd)
  | .service cmd _ => .ok (.serviceH cmd)
  | .ufw _ _ => .error ERR_INVALID_COMMAND

/-! ### Response building (`src/root/task.rs:response`)

`response` serializes the success value with `bincode` (an external crate:
its outcome is taken as the `Option (List Nat)` input, `none` for a
serialization failure), checks that the byte length fits `u32`, and encodes
the bytes with `data_encoding::BASE64` (modelled executably below). -/

/-- The base64 alphabet used by `data_encoding::BASE64`. -/
def base64Alphabet : List Char :=
  "ABCDEFGHIJKLMNOPQRSTUVWXYZabcdefghijklmnopqrstuvwxyz0123456789+/".data

def base64Digit (n : Nat) : Char := base64Alphabet.getD n '?'

/-- Standard base64 encoding with `=` padding, of a byte list. -/
def base64Encode : List Nat → List Char
  | [] => []
  | [b1] => [base64Digit (b1 / 4 % 64), base64Digit (b1 % 4 * 16), '=', '=']
  | [b1, b2] =>
    [base64Digit (b1 / 4 % 64), base64Digit (b1 % 4 * 16 + b2 / 16 % 16),
     base64Digit (b2 % 16 * 4), '=']
  | b1 :: b2 :: b3 :: rest =>
    base64Digit (b1 / 4 % 64) :: base64Digit (b1 % 4 * 16 + b2 / 16 % 16) ::
    base64Digit (b2 % 16 * 4 + b3 / 64 % 4) :: base64Digit (b3 % 64) ::
    base64Encode rest

def U32_MAX : Nat := 2 ^ 32 - 1

/-- Rust `response` (src/root/task.rs): builds the success payload from the
serializer's outcome. `message.len()` exceeding `u32::MAX` is `message too
long`; a serialization failure is `fail to serialize response message`;
otherwise the full base64-encoded payload is returned. -/
def response (message : Option (List Nat)) : Except String String :=
  match message with
  | some m =>
    if U32_MAX < m.length then .error ERR_MESSAGE_TOO_LONG
    else .ok (String.mk (base64Encode m))
  | none => .error ERR_PARSE_FAIL

/-! ### Configuration document (`src/root/ifconfig.rs`)

`Network.ethernets` is an ordered list of `(name, Nic)` pairs (the Rust code
deserializes the YAML map into a `Vec` and keeps it sorted); bridges are a
`HashMap`, modelled as an association list. -/

/-- Rust `Address` (src/root/ifconfig.rs): a bridge's nameserver block. -/
structure BridgeAddress where
  search : Option (List String)
  addresses : Option (List String)
deriving DecidableEq, Repr

/-- Rust `Bridge` (src/root/ifconfig.rs). -/
structure Bridge where
  interfaces : List String
  addresses : List String
  gateway4 : Option String
  nameservers : BridgeAddress
deriving DecidableEq, Repr

/-- Rust `Network` (src/root/ifconfig.rs). -/
structure Network where
  version : Option Nat
  renderer : Option String
  ethernets : List (String × Nic)
  bridges : Option (List (String × Bridge))
deriving DecidableEq, Repr

/-- Rust `NetplanYaml` (src/root/ifconfig.rs). -/
structure NetplanYaml where
  network : Network
deriving DecidableEq, Repr

/-- The name-comparison used by `sort_by(|a, b| a.0.cmp(&b.0))` on the
ethernet list. -/
def nameLe (a b : String × Nic) : Bool := strLe a.1 b.1

/-- The inner loop of `NetplanYaml::merge` over incoming ethernet entries:
replace the first entry with a matching name, else push at the end. -/
def ethSet : List (String × Nic) → String → Nic → List (String × Nic)
  | [], ifname, ifcfg => [(ifname, ifcfg)]
  | (n, c) :: rest, ifname, ifcfg =>
    if n = ifname then (n, ifcfg) :: rest
    else (n, c) :: ethSet rest ifname ifcfg

/-- The inner loop of `NetplanYaml::merge` over incoming bridge entries:
replace by key or insert (`get_mut` / `insert` on the `HashMap`). -/
def bridgeSet : List (String × Bridge) → String → Bridge → List (String × Bridge)
  | [], ifname, cfg => [(ifname, cfg)]
  | (n, c) :: rest, ifname, cfg =>
    if n = ifname then (n, cfg) :: rest
    else (n, c) :: bridgeSet rest ifname cfg

/-- Rust `HashMap::get` on the bridges map. -/
def bridgeLookup : List (String × Bridge) → String → Option Bridge
  | [], _ => none
  | (n, c) :: rest, name => if n = name then some c else bridgeLookup rest name

/-- Rust `NetplanYaml::merge` (src/root/ifconfig.rs): scalars overwritten when the
incoming fragment defines them; ethernets replaced-by-name or appended, then
re-sorted by name; bridges merged into the map only when *both* documents
have a bridges map. -/
def NetplanYaml.merge (self newyml : NetplanYaml) : NetplanYaml :=
  let version := if newyml.network.version.isSome then newyml.network.version
    else self.network.version
  let renderer := if newyml.network.renderer.isSome then newyml.network.renderer
    else self.network.renderer
  let ethernets :=
    (newyml.network.ethernets.foldl (fun acc p => ethSet acc p.1 p.2)
      self.network.ethernets).mergeSort nameLe
  let bridges :=
    match newyml.network.bridges, self.network.bridges with
    | some new_bridges, some self_bridges =>
      some (new_bridges.foldl (fun acc p => bridgeSet acc p.1 p.2) self_bridges)
    | _, _ => self.network.bridges
  { network := { version := version, renderer := renderer,
                 ethernets := ethernets, bridges := bridges } }

/-- Rust `NetplanYaml::set_interface` (src/root/ifconfig.rs): replace the first
entry with a matching name in place, else push the new record and re-sort. -/
def NetplanYaml.set_interface (self : NetplanYaml) (ifname : String) (new_if : Nic) :
    NetplanYaml :=
  if (self.network.ethernets.find? (fun x => x.1 = ifname)).isSome then
    { network := { self.network with
        ethernets := ethSet self.network.ethernets ifname new_if } }
  else
    { network := { self.network with
        ethernets := (self.network.ethernets ++ [(ifname, new_if)]).mergeSort nameLe } }

/-- Rust `NetplanYaml::init_interface` (src/root/ifconfig.rs). -/
def NetplanYaml.init_interface (self : NetplanYaml) (ifname : String) : NetplanYaml :=
  self.set_interface ifname (Nic.new none none none none none)

/-- The field-level removals of `NetplanYaml::delete` applied to the found
interface record: set-difference on addresses, gateway cleared only on exact
match, requested values removed from every nameserver value list. -/
def Nic.deleteFields (ifs : Nic) (nic_output : NicOutput) : Nic :=
  let ifs :=
    match nic_output.addresses with
    | none => ifs
    | some addrs =>
      { ifs with addresses :=
          addrs.foldl (fun cur addr => cur.map (List.filter (fun x => x ≠ addr))) ifs.addresses }
  let ifs :=
    if nic_output.gateway4.isSome ∧ ifs.gateway4 = nic_output.gateway4 then
      { ifs with gateway4 := none }
    else ifs
  match nic_output.nameservers with
  | none => ifs
  | some addrs =>
    let ns := addrs.foldl
      (fun cur addr => cur.map (List.map (fun kv =>
        (kv.1, if kv.2.contains addr then kv.2.filter (fun x => x ≠ addr) else kv.2))))
      ifs.nameservers
    { ifs with nameservers := ns }

/-- Replace the first entry with the given name by `f` applied to its record;
`none` when the name is absent (mirrors `iter_mut().find(..)` + mutation). -/
def updateFirst : List (String × Nic) → String → (Nic → Nic) → Option (List (String × Nic))
  | [], _, _ => none
  | (n, c) :: rest, ifname, f =>
    if n = ifname then some ((n, f c) :: rest)
    else (updateFirst rest ifname f).map (fun l => (n, c) :: l)

/-- Rust `NetplanYaml::delete` (src/root/ifconfig.rs): errors when the interface is
not in the document, otherwise removes the listed values in place. -/
def NetplanYaml.delete (self : NetplanYaml) (ifname : String) (nic_output : NicOutput) :
    Except String NetplanYaml :=
  match updateFirst self.network.ethernets ifname (fun ifs => ifs.deleteFields nic_output) with
  | none => .error ("Interface " ++ ifname ++ " not found")
  | some l => .ok { network := { self.network with ethernets := l } }

/-! ### Load & merge (`load_netplan_yaml`)

File discovery and YAML parsing are I/O; the loader is modelled over the
per-fragment parse outcomes, in lexicographic listing order. -/

/-- The fragment loop of `load_netplan_yaml`: a parse failure aborts the whole
load via `?`; otherwise each fragment is merged into the accumulator. -/
def loadNetplanGo : List (Except String NetplanYaml) → Option NetplanYaml →
    Except String NetplanYaml
  | [], none => .error "Netplan configuration not found!"
  | [], some n => .ok n
  | .error e :: _, _ => .error e
  | .ok cfg :: rest, none => loadNetplanGo rest (some cfg)
  | .ok cfg :: rest, some n => loadNetplanGo rest (some (n.merge cfg))

/-- Rust `load_netplan_yaml` (src/root/ifconfig.rs) over the parse outcomes of the
fragment files found in the configuration directory. -/
def loadNetplan (parsed : List (Except String NetplanYaml)) : Except String NetplanYaml :=
  loadNetplanGo parsed none

/-! ### Validation and `set` (`src/root/ifconfig.rs`)

`validate_ipaddress` / `validate_ipnetworks` delegate to the external
`std::net::IpAddr` / `ipnet::IpNet` parsers; they are modelled executably as
IPv4 dotted-quad / CIDR syntax checks (the claims below depend only on the
engine's control flow around them, not on the parser details). -/

/-- One decimal octet, `0..=255`, digits only, no leading zero (Rust's
`IpAddr` grammar). -/
def validOctet (s : List Char) : Bool :=
  match s with
  | [] => false
  | [c] => c.isDigit
  | c :: rest =>
    c.isDigit && rest.all Char.isDigit && c ≠ '0' &&
      (s.foldl (fun acc c => acc * 10 + (c.toNat - 48)) 0) ≤ 255

/-- Split a character list on a separator character (each separator starts a
new group; used in place of `String.splitOn`, which does not reduce in the
kernel). -/
def splitOnChar (sep : Char) : List Char → List (List Char)
  | [] => [[]]
  | c :: rest =>
    if c = sep then [] :: splitOnChar sep rest
    else
      match splitOnChar sep rest with
      | [] => [[c]]
      | g :: gs => (c :: g) :: gs

/-- Modelled from `std::net::IpAddr` parsing (external crate), IPv4 form:
four dot-separated decimal octets. -/
def validIpAddr (s : String) : Bool :=
  match splitOnChar '.' s.data with
  | [a, b, c, d] => validOctet a && validOctet b && validOctet c && validOctet d
  | _ => false

/-- Modelled from `ipnet::IpNet` parsing (external crate), IPv4 form:
`address/prefix` with a prefix of at most 32. -/
def validIpNet (s : String) : Bool :=
  match splitOnChar '/' s.data with
  | [addr, p] =>
    validIpAddr (String.mk addr) && !p.isEmpty && p.all Char.isDigit &&
      (p.foldl (fun acc c => acc * 10 + (c.toNat - 48)) 0) ≤ 32
  | _ => false

/-- First address of the list failing `validate_ipnetworks`, if any. -/
def firstInvalidNet : List String → Option String
  | [] => none
  | a :: rest => if validIpNet a then firstInvalidNet rest else some a

/-- First address of the list failing `validate_ipaddress`, if any. -/
def firstInvalidAddr : List String → Option String
  | [] => none
  | a :: rest => if validIpAddr a then firstInvalidAddr rest else some a

/-- The address-validation loop of `set`. -/
def checkAddresses : Option (List String) → Except String Unit
  | none => .ok ()
  | some addrs =>
    match firstInvalidNet addrs with
    | some bad => .error ("invalid interface address: " ++ bad)
    | none => .ok ()

/-- The gateway validation of `set`: syntax check, then the
single-default-gateway scan over the merged document. -/
def checkGateway (netplan : NetplanYaml) (ifname : String) :
    Option String → Except String Unit
  | none => .ok ()
  | some ipaddr =>
    if validIpAddr ipaddr then
      if netplan.network.ethernets.any (fun p => p.1 ≠ ifname && p.2.gateway4.isSome) then
        .error "only one interface can have gateway."
      else .ok ()
    else .error ("invalid gateway4 address: " ++ ipaddr)

/-- The nameserver-validation loop of `set`. The Rust source spells it
`while let Some(ip) = &nic_output.nameservers { .. }`: the binding never
changes, so when every entry is valid the loop repeats forever. The loop is
modelled with explicit fuel; `none` means the fuel was exhausted without the
loop terminating. -/
def nameserverCheckLoop (fuel : Nat) (nameservers : Option (List String)) :
    Option (Except String Unit) :=
  match nameservers with
  | none => some (.ok ())
  | some ns =>
    match firstInvalidAddr ns with
    | some bad => some (.error ("invalid nameserver address: " ++ bad))
    | none =>
      match fuel with
      | 0 => none
      | Nat.succ f => nameserverCheckLoop f (some ns)

/-- Rust `set` (src/root/ifconfig.rs), over the document loaded from disk:
validation in source order (addresses, gateway + single-gateway scan, the
nameserver `while let` loop, the dhcp4/static conflict), then
`set_interface` with the converted record. The result document is what
`apply` would persist; `none` means `set` did not terminate within `fuel`
iterations of the nameserver loop. -/
def setModel (fuel : Nat) (netplan : NetplanYaml) (ifname : String)
    (nic_output : NicOutput) : Option (Except String NetplanYaml) :=
  match checkAddresses nic_output.addresses with
  | .error e => some (.error e)
  | .ok () =>
    match checkGateway netplan ifname nic_output.gateway4 with
    | .error e => some (.error e)
    | .ok () =>
      match nameserverCheckLoop fuel nic_output.nameservers with
      | none => none
      | some (.error e) => some (.error e)
      | some (.ok ()) =>
        if nic_output.dhcp4 = some true ∧
            (nic_output.addresses.isSome ∨ nic_output.nameservers.isSome) then
          some (.error "dhcp4 and static address cannot be set in the same interface")
        else
          some (.ok (netplan.set_interface ifname nic_output.to))

/-! ### The privileged process entry point (`src/main.rs`) -/

/-- The `Node` → `Task` construction of `main`, with the argument bytes
base64-encoded. -/
def buildTask (nr : NodeRequest) : Task :=
  let arg := String.mk (base64Encode nr.arg)
  match nr.kind with
  | .hostname cmd => .hostname cmd arg
  | .interface cmd => .interface cmd arg
  | .ntp cmd => .ntp cmd arg
  | .powerOff => .powerOff arg
  | .reboot => .reboot arg
  | .gracefulReboot => .gracefulReboot arg
  | .gracefulPowerOff => .gracefulPowerOff arg
  | .service cmd => .service cmd arg
  | .sshd cmd => .sshd cmd arg
  | .syslog cmd => .syslog cmd arg
  | .ufw cmd => .ufw cmd arg
  | .version cmd => .version cmd arg

/-- The control skeleton of `main` (src/main.rs). Inputs: the outcome of
parsing the request from standard input, the executor (handlers perform I/O,
so the execution result is a parameter), and whether writing the result to
standard output succeeds. Output: the process exit code and the
`ExecResult` body written to standard output, if any. -/
def mainModel (parsedRequest : Option NodeRequest) (run : Task → Except String String)
    (stdoutOk : Bool) : Nat × Option (Except String String) :=
  match parsedRequest with
  | none => (1, if stdoutOk then some (.error ERR_INVALID_COMMAND) else none)
  | some nr =>
    let ret := run (buildTask nr)
    if stdoutOk then (0, some ret) else (1, none)

/-! ### Sortedness of the ethernet list -/

/-- The ethernet list is sorted by interface name (the order enforced by
`sort_by(|a, b| a.0.cmp(&b.0))`). -/
def sortedEth (l : List (String × Nic)) : Prop :=
  List.Pairwise (fun a b => nameLe a b = true) l

instance (l : List (String × Nic)) : Decidable (sortedEth l) :=
  inferInstanceAs (Decidable (List.Pairwise _ l))

theorem nameLe_trans (a b c : String × Nic) (hab : nameLe a b = true)
    (hbc : nameLe b c = true) : nameLe a c = true :=
  strLe_trans a.1 b.1 c.1 hab hbc

theorem nameLe_total (a b : String × Nic) : (nameLe a b || nameLe b a) = true :=
  strLe_total a.1 b.1

theorem sortedEth_mergeSort (l : List (String × Nic)) : sortedEth (l.mergeSort nameLe) :=
  List.sorted_mergeSort nameLe_trans nameLe_total l

theorem sortedEth_iff_pairwise_fst (l : List (String × Nic)) :
    sortedEth l ↔ (l.map Prod.fst).Pairwise (fun a b => strLe a b = true) := by
  unfold sortedEth nameLe
  rw [List.pairwise_map]

theorem sortedEth_of_map_fst_eq {l l' : List (String × Nic)}
    (h : l'.map Prod.fst = l.map Prod.fst) (hs : sortedEth l) : sortedEth l' := by
  rw [sortedEth_iff_pairwise_fst] at hs ⊢
  rwa [h]

theorem ethSet_map_fst_of_mem (l : List (String × Nic)) (n : String) (c : Nic)
    (hmem : n ∈ l.map Prod.fst) :
    (ethSet l n c).map Prod.fst = l.map Prod.fst := by
  induction l with
  | nil => cases hmem
  | cons hd rest ih =>
    obtain ⟨m, d⟩ := hd
    by_cases h : m = n
    · simp [ethSet, h]
    · have hmemr : n ∈ rest.map Prod.fst := by
        rcases List.mem_cons.mp hmem with heq | hr
        · exact absurd heq.symm h
        · exact hr
      simp [ethSet, h, ih hmemr]

theorem sortedEth_ethSet (l : List (String × Nic)) (n : String) (c : Nic)
    (hs : sortedEth l) (hmem : n ∈ l.map Prod.fst) : sortedEth (ethSet l n c) := by
  induction l with
  | nil => cases hmem
  | cons hd rest ih =>
    obtain ⟨m, d⟩ := hd
    obtain ⟨hhead, htail⟩ := List.pairwise_cons.mp hs
    by_cases h : m = n
    · subst h
      simp only [ethSet, if_pos rfl]
      exact List.pairwise_cons.mpr ⟨fun y hy => hhead y hy, htail⟩
    · have hmemr : n ∈ rest.map Prod.fst := by
        rcases List.mem_cons.mp hmem with heq | hr
        · exact absurd heq.symm h
        · exact hr
      simp only [ethSet, if_neg h]
      refine List.pairwise_cons.mpr ⟨?_, ih htail hmemr⟩
      intro y hy
      have hy1 : y.1 ∈ rest.map Prod.fst := by
        have := List.mem_map_of_mem Prod.fst hy
        rwa [ethSet_map_fst_of_mem rest n c hmemr] at this
      obtain ⟨z, hz, hz1⟩ := List.mem_map.mp hy1
      have hzr := hhead z hz
      show strLe m y.1 = true
      rw [← hz1]
      exact hzr

theorem find_name_isSome_iff (l : List (String × Nic)) (n : String) :
    (l.find? (fun x => x.1 = n)).isSome = true ↔ n ∈ l.map Prod.fst := by
  induction l with
  | nil => simp
  | cons hd rest ih =>
    obtain ⟨m, d⟩ := hd
    by_cases h : m = n
    · simp [List.find?, h]
    · simp [List.find?, h, ih, Ne.symm h]

theorem updateFirst_map_fst (l : List (String × Nic)) (n : String) (f : Nic → Nic)
    (l' : List (String × Nic)) (h : updateFirst l n f = some l') :
    l'.map Prod.fst = l.map Prod.fst := by
  induction l generalizing l' with
  | nil => simp [updateFirst] at h
  | cons hd rest ih =>
    obtain ⟨m, d⟩ := hd
    by_cases hm : m = n
    · simp only [updateFirst, if_pos hm, Option.some.injEq] at h
      subst h
      simp
    · obtain ⟨l'', h1, rfl⟩ := by
        simpa only [updateFirst, if_neg hm, Option.map_eq_some'] using h
      simp [ih l'' h1]

/-! ### Merge self-idempotence helpers -/

theorem ethSet_of_mem_nodup (l : List (String × Nic)) (n : String) (c : Nic)
    (hnodup : (l.map Prod.fst).Nodup) (hmem : (n, c) ∈ l) : ethSet l n c = l := by
  induction l with
  | nil => cases hmem
  | cons hd rest ih =>
    obtain ⟨m, d⟩ := hd
    simp only [List.map_cons, List.nodup_cons] at hnodup
    obtain ⟨hm, hrest⟩ := hnodup
    by_cases h : m = n
    · subst h
      rcases List.mem_cons.mp hmem with heq | hmemr
      · obtain ⟨-, rfl⟩ := Prod.mk.injEq .. ▸ heq.symm
        simp [ethSet]
      · exact absurd (List.mem_map_of_mem Prod.fst hmemr) hm
    · rcases List.mem_cons.mp hmem with heq | hmemr
      · exact absurd ((congrArg Prod.fst heq).symm) h
      · simp [ethSet, h, ih hrest hmemr]

theorem foldl_ethSet_fixed (base : List (String × Nic))
    (hnodup : (base.map Prod.fst).Nodup) :
    ∀ l : List (String × Nic), (∀ p ∈ l, p ∈ base) →
      l.foldl (fun acc p => ethSet acc p.1 p.2) base = base := by
  intro l
  induction l with
  | nil => intro _; rfl
  | cons p rest ih =>
    intro hall
    have hp : p ∈ base := hall p (List.mem_cons_self p rest)
    have hstep : ethSet base p.1 p.2 = base :=
      ethSet_of_mem_nodup base p.1 p.2 hnodup hp
    simp only [List.foldl_cons, hstep]
    exact ih (fun q hq => hall q (List.mem_cons_of_mem p hq))

/-! ### Bridge map helpers -/

theorem bridgeLookup_bridgeSet_self (l : List (String × Bridge)) (n : String) (b : Bridge) :
    bridgeLookup (bridgeSet l n b) n = some b := by
  induction l with
  | nil => simp [bridgeSet, bridgeLookup]
  | cons hd rest ih =>
    obtain ⟨m, c⟩ := hd
    by_cases h : m = n
    · simp [bridgeSet, bridgeLookup, h]
    · simp [bridgeSet, bridgeLookup, h, ih]

theorem bridgeLookup_bridgeSet_ne (l : List (String × Bridge)) (n : String) (b : Bridge)
    (m : String) (h : m ≠ n) : bridgeLookup (bridgeSet l n b) m = bridgeLookup l m := by
  induction l with
  | nil => simp [bridgeSet, bridgeLookup, Ne.symm h]
  | cons hd rest ih =>
    obtain ⟨k, c⟩ := hd
    by_cases hk : k = n
    · subst hk
      simp [bridgeSet, bridgeLookup, Ne.symm h]
    · by_cases hkm : k = m
      · subst hkm
        simp [bridgeSet, bridgeLookup, hk]
      · simp [bridgeSet, bridgeLookup, hk, hkm, ih]

theorem bridgeFold_lookup_notmem (l : List (String × Bridge)) (name : String) :
    ∀ acc : List (String × Bridge), name ∉ l.map Prod.fst →
      bridgeLookup (l.foldl (fun acc p => bridgeSet acc p.1 p.2) acc) name =
        bridgeLookup acc name := by
  induction l with
  | nil => intro acc _; rfl
  | cons p rest ih =>
    intro acc hnot
    simp only [List.map_cons, List.mem_cons, not_or] at hnot
    obtain ⟨hne, hrest⟩ := hnot
    simp only [List.foldl_cons]
    rw [ih _ hrest, bridgeLookup_bridgeSet_ne _ _ _ _ hne]

theorem bridgeFold_lookup_mem (l : List (String × Bridge)) (name : String) (b : Bridge) :
    ∀ acc : List (String × Bridge), (l.map Prod.fst).Nodup → (name, b) ∈ l →
      bridgeLookup (l.foldl (fun acc p => bridgeSet acc p.1 p.2) acc) name = some b := by
  induction l with
  | nil => intro _ _ hmem; cases hmem
  | cons p rest ih =>
    intro acc hnodup hmem
    simp only [List.map_cons, List.nodup_cons] at hnodup
    obtain ⟨hp, hrest⟩ := hnodup
    simp only [List.foldl_cons]
    rcases List.mem_cons.mp hmem with heq | hmemr
    · subst heq
      rw [bridgeFold_lookup_notmem rest name _ hp]
      exact bridgeLookup_bridgeSet_self acc (name, b).1 (name, b).2
    · exact ih _ hrest hmemr

/-! ### Loader helpers -/

theorem loadNetplanGo_error (parsed : List (Except String NetplanYaml)) (e : String) :
    ∀ acc : Option NetplanYaml, Except.error e ∈ parsed →
      ∃ msg, loadNetplanGo parsed acc = .error msg := by
  induction parsed with
  | nil => intro _ hmem; cases hmem
  | cons hd rest ih =>
    intro acc hmem
    cases hd with
    | error e2 =>
      exact ⟨e2, by cases acc <;> rfl⟩
    | ok cfg =>
      have hr : Except.error e ∈ rest := by
        rcases List.mem_cons.mp hmem with heq | h
        · cases heq
        · exact h
      cases acc with
      | none => exact ih (some cfg) hr
      | some n => exact ih (some (n.merge cfg)) hr

/-! ### Nameserver-loop divergence helper -/

theorem nameserverCheckLoop_none_of_all_valid (fuel : Nat) (ns : List String)
    (h : firstInvalidAddr ns = none) : nameserverCheckLoop fuel (some ns) = none := by
  induction fuel with
  | zero => simp [nameserverCheckLoop, h]
  | succ f ih =>
    simp only [nameserverCheckLoop, h]
    exact ih

theorem sortedEth_set_interface (d : NetplanYaml) (h : sortedEth d.network.ethernets)
    (ifname : String) (nic : Nic) :
    sortedEth ((d.set_interface ifname nic).network.ethernets) := by
  unfold NetplanYaml.set_interface
  by_cases hfind : (d.network.ethernets.find? (fun x => x.1 = ifname)).isSome = true
  · rw [if_pos hfind]
    exact sortedEth_ethSet _ _ _ h ((find_name_isSome_iff _ _).mp hfind)
  · rw [if_neg hfind]
    exact sortedEth_mergeSort _

/-! ## Claims -/

/-- Sample empty interface record used by the concrete witnesses. -/
def sampleNic : Nic := Nic.new none none none none none

/-- Sample sorted two-interface document used by the concrete witnesses. -/
def sampleDoc : NetplanYaml :=
  ⟨⟨some 2, some "networkd", [("eth0", sampleNic), ("eth1", sampleNic)], none⟩⟩

/-- C1: refuted — code bug. The claim says that whenever every supplied
address is a valid CIDR network, every supplied nameserver a valid address,
any gateway valid and unique, and dhcp4 not combined with a static
address/nameserver, `set` terminates and overwrites the record. But `set`'s
nameserver validation is spelled `while let Some(ip) = &nic_output.nameservers`
(src/root/ifconfig.rs): the binding never changes, so once every nameserver
entry is valid the loop repeats forever. On the source's own doc-comment
example input (`eno3`, valid address and nameserver lists) the call never
completes: for every fuel bound the model returns `none`. -/
theorem set_nonterminating_on_valid_nameservers (fuel : Nat) (netplan : NetplanYaml) :
    setModel fuel netplan "eno3"
      ⟨some ["192.168.0.205/24"], none, none, some ["164.124.101.1"]⟩ = none := by
  have h1 : checkAddresses (some ["192.168.0.205/24"]) = .ok () := rfl
  have h3 : nameserverCheckLoop fuel (some ["164.124.101.1"]) = none :=
    nameserverCheckLoop_none_of_all_valid fuel _ (by decide)
  simp [setModel, h1, checkGateway, h3]

/-- C5: refuted — code bug (same `while let` slip as C1). A `set` call with
`dhcp4 = Some(true)` combined with a supplied (all-valid) nameserver list is
one of the claim's validation violations and should return an error with no
mutation, but the nameserver re-validation loop never exits, so the
dhcp4/static-conflict check is never reached: for every fuel bound the model
returns `none` — no error is returned (and no mutation or apply happens
either, but not for the claimed reason). -/
theorem set_dhcp4_conflict_not_reported (fuel : Nat) (netplan : NetplanYaml) :
    setModel fuel netplan "eth0" ⟨none, some true, none, some ["8.8.8.8"]⟩ = none := by
  have h3 : nameserverCheckLoop fuel (some ["8.8.8.8"]) = none :=
    nameserverCheckLoop_none_of_all_valid fuel _ (by decide)
  simp [setModel, checkAddresses, checkGateway, h3]

/-- Concrete bridge record for the C2 counterexample and witness. -/
def cexBridge : Bridge := ⟨["eth0"], ["10.0.0.10/24"], none, ⟨none, none⟩⟩

/-- Accumulated document without a bridges map. -/
def cexBase : NetplanYaml := ⟨⟨none, none, [], none⟩⟩

/-- Incoming fragment declaring bridge `br0`. -/
def cexIncoming : NetplanYaml := ⟨⟨none, none, [], some [("br0", cexBridge)]⟩⟩

/-- Accumulated document already carrying a bridges map, for the C2 witness. -/
def witBase : NetplanYaml := ⟨⟨none, none, [], some [("br9", cexBridge)]⟩⟩

/-- C2 counterexample: the incoming fragment names bridge `br0`, yet after the
merge the accumulated document still has no bridges map at all — `merge`
merges bridges only when the accumulated document already has a bridges map,
so the incoming bridge is dropped, contradicting the claim as stated. -/
theorem merge_drops_incoming_bridges_cex :
    cexIncoming.network.bridges = some [("br0", cexBridge)] ∧
    (cexBase.merge cexIncoming).network.bridges = none :=
  ⟨rfl, rfl⟩

/-- C2 (amended): provided the accumulated document already has a bridges map
(when it has none, the incoming fragment's bridges are dropped) and the
incoming fragment's bridge names are distinct (as `HashMap` keys are), every
bridge named in the incoming fragment is present in the merged document
afterwards (a same-named existing bridge replaced, an unmatched name
inserted), and bridges not mentioned by the incoming fragment are preserved
unchanged. -/
theorem merge_bridges_replace_or_insert (self newdoc : NetplanYaml)
    (sb nb : List (String × Bridge))
    (hself : self.network.bridges = some sb)
    (hnew : newdoc.network.bridges = some nb)
    (hnodup : (nb.map Prod.fst).Nodup) :
    ∃ mb, (self.merge newdoc).network.bridges = some mb ∧
      (∀ name b, (name, b) ∈ nb → bridgeLookup mb name = some b) ∧
      (∀ name, name ∉ nb.map Prod.fst → bridgeLookup mb name = bridgeLookup sb name) := by
  refine ⟨nb.foldl (fun acc p => bridgeSet acc p.1 p.2) sb, ?_, ?_, ?_⟩
  · simp [NetplanYaml.merge, hself, hnew]
  · intro name b hmem
    exact bridgeFold_lookup_mem nb name b sb hnodup hmem
  · intro name hname
    exact bridgeFold_lookup_notmem nb name sb hname

/-- Witness for the amended C2 theorem at a concrete pair of documents. -/
theorem merge_bridges_replace_or_insert_witness :
    ∃ mb, (witBase.merge cexIncoming).network.bridges = some mb ∧
      (∀ name b, (name, b) ∈ [("br0", cexBridge)] → bridgeLookup mb name = some b) ∧
      (∀ name, name ∉ [("br0", cexBridge)].map Prod.fst →
        bridgeLookup mb name = bridgeLookup [("br9", cexBridge)] name) :=
  merge_bridges_replace_or_insert witBase cexIncoming [("br9", cexBridge)]
    [("br0", cexBridge)] rfl rfl (by decide)

/-- C3: confirmed. The response builder returns `message too long` exactly
when serialization succeeded and the byte length exceeds the 32-bit count
bound; a length within the bound yields the full base64-encoded payload with
no truncation; a serialization failure yields the distinct error
`fail to serialize response message`. -/
theorem response_length_discipline (message : Option (List Nat)) :
    (response message = .error ERR_MESSAGE_TOO_LONG ↔
      ∃ m, message = some m ∧ U32_MAX < m.length) ∧
    (∀ m, message = some m → m.length ≤ U32_MAX →
      response message = .ok (String.mk (base64Encode m))) ∧
    (message = none → response message = .error ERR_PARSE_FAIL) := by
  refine ⟨?_, ?_, ?_⟩
  · cases message with
    | none =>
      simp only [response]
      constructor
      · intro h
        exact absurd (Except.error.inj h) (by decide)
      · rintro ⟨m, hm, -⟩
        cases hm
    | some m =>
      by_cases h : U32_MAX < m.length
      · simp [response, h]
      · simp [response, h]
  · rintro m rfl hle
    simp [response, Nat.not_lt.mpr hle]
  · rintro rfl
    rfl

/-- Witness for C3 at a concrete one-byte payload and at a serialization
failure. -/
theorem response_length_discipline_witness :
    response (some [77]) = .ok (String.mk (base64Encode [77])) ∧
    response none = .error ERR_PARSE_FAIL :=
  ⟨(response_length_discipline (some [77])).2.1 [77] rfl (by decide),
   (response_length_discipline none).2.2 rfl⟩

/-- C4: confirmed. For every verb, a `Ufw` task falls through `Task::execute`'s
wildcard arm to `Err("invalid command")`: no `(Ufw, verb)` pair is routed to
any handler, even though `Ufw` is a member of the command taxonomy. -/
theorem ufw_dispatch_invalid_command (cmd : SubCommand) (arg : String) :
    Task.dispatch (Task.ufw cmd arg) = .error ERR_INVALID_COMMAND :=
  rfl

/-- C6: confirmed. Re-merging a merged document with a copy of itself is the
identity on the ethernet list: every replace-by-name step of the fold is a
no-op on a list with unique names, and re-sorting an already-sorted list is
the identity, so the list is unchanged and still sorted by name. -/
theorem merge_self_ethernets_id (d : NetplanYaml)
    (hnodup : (d.network.ethernets.map Prod.fst).Nodup)
    (hsorted : sortedEth d.network.ethernets) :
    (d.merge d).network.ethernets = d.network.ethernets ∧
    sortedEth (d.merge d).network.ethernets := by
  have hfold : d.network.ethernets.foldl (fun acc p => ethSet acc p.1 p.2)
      d.network.ethernets = d.network.ethernets :=
    foldl_ethSet_fixed d.network.ethernets hnodup d.network.ethernets (fun _ hp => hp)
  have heq : (d.merge d).network.ethernets = d.network.ethernets := by
    show (d.network.ethernets.foldl (fun acc p => ethSet acc p.1 p.2)
        d.network.ethernets).mergeSort nameLe = d.network.ethernets
    rw [hfold]
    exact List.mergeSort_of_sorted hsorted
  exact ⟨heq, heq ▸ hsorted⟩

/-- Witness for C6 at a concrete sorted unique-name document. -/
theorem merge_self_ethernets_id_witness :
    (sampleDoc.merge sampleDoc).network.ethernets = sampleDoc.network.ethernets ∧
    sortedEth (sampleDoc.merge sampleDoc).network.ethernets :=
  merge_self_ethernets_id sampleDoc (by decide) (by decide)

/-- C7: confirmed. Loading the merged configuration from a directory holding
no fragment fails with the "configuration not found" error, and a fragment
that fails to parse aborts the whole load with an error — no partial document
is returned. -/
theorem load_netplan_failure_modes :
    loadNetplan [] = .error "Netplan configuration not found!" ∧
    ∀ parsed e, Except.error e ∈ parsed → ∃ msg, loadNetplan parsed = .error msg := by
  refine ⟨rfl, ?_⟩
  intro parsed e hmem
  exact loadNetplanGo_error parsed e none hmem

/-- Witness for C7 at a concrete directory with one unparsable fragment. -/
theorem load_netplan_failure_modes_witness :
    ∃ msg, loadNetplan [Except.error "Error: invalid yaml"] = .error msg :=
  load_netplan_failure_modes.2 [Except.error "Error: invalid yaml"]
    "Error: invalid yaml" (List.mem_singleton.mpr rfl)

/-- C8: confirmed. For every document whose ethernet list is sorted by name,
the list is still sorted by name after `merge` of any fragment, after
`set_interface` of any record, after `init_interface`, and after a
successful `delete`. -/
theorem ethernets_sorted_invariant (d : NetplanYaml)
    (h : sortedEth d.network.ethernets) :
    (∀ frag, sortedEth (d.merge frag).network.ethernets) ∧
    (∀ ifname nic, sortedEth ((d.set_interface ifname nic).network.ethernets)) ∧
    (∀ ifname, sortedEth ((d.init_interface ifname).network.ethernets)) ∧
    (∀ ifname nic_output d2, d.delete ifname nic_output = .ok d2 →
      sortedEth d2.network.ethernets) := by
  refine ⟨?_, ?_, ?_, ?_⟩
  · intro frag
    show sortedEth ((frag.network.ethernets.foldl (fun acc p => ethSet acc p.1 p.2)
        d.network.ethernets).mergeSort nameLe)
    exact sortedEth_mergeSort _
  · intro ifname nic
    exact sortedEth_set_interface d h ifname nic
  · intro ifname
    exact sortedEth_set_interface d h ifname (Nic.new none none none none none)
  · intro ifname nic_output d2 hdel
    unfold NetplanYaml.delete at hdel
    rcases hupd : updateFirst d.network.ethernets ifname
        (fun ifs => ifs.deleteFields nic_output) with _ | l
    · rw [hupd] at hdel
      simp at hdel
    · rw [hupd] at hdel
      simp only [Except.ok.injEq] at hdel
      subst hdel
      exact sortedEth_of_map_fst_eq (updateFirst_map_fst _ _ _ l hupd) h

/-- Witness for C8 at a concrete sorted document. -/
theorem ethernets_sorted_invariant_witness :
    sortedEth ((sampleDoc.set_interface "eth2" sampleNic).network.ethernets) :=
  (ethernets_sorted_invariant sampleDoc (by decide)).2.1 "eth2" sampleNic

/-- C9: confirmed. The privileged process exits non-zero exactly when the
request on standard input was unparsable or the result could not be written
to standard output; a request that parses but whose handler fails still exits
zero with the failure inside the `Err(...)`-tagged body on standard output. -/
theorem main_exit_code_discipline (parsedRequest : Option NodeRequest)
    (run : Task → Except String String) (stdoutOk : Bool) :
    ((mainModel parsedRequest run stdoutOk).1 ≠ 0 ↔
      (parsedRequest = none ∨ stdoutOk = false)) ∧
    (∀ nr e, parsedRequest = some nr → stdoutOk = true →
      run (buildTask nr) = .error e →
      mainModel parsedRequest run stdoutOk = (0, some (.error e))) := by
  constructor
  · cases parsedRequest <;> cases stdoutOk <;> simp [mainModel]
  · rintro nr e rfl rfl hrun
    simp [mainModel, hrun]

/-- Witness for C9: a parsed request whose handler fails exits zero with the
failure in the body. -/
theorem main_exit_code_discipline_witness :
    mainModel (some ⟨Node.interface SubCommand.set, []⟩)
      (fun _ => .error ERR_FAIL) true = (0, some (.error ERR_FAIL)) :=
  (main_exit_code_discipline (some ⟨Node.interface SubCommand.set, []⟩)
    (fun _ => .error ERR_FAIL) true).2 ⟨Node.interface SubCommand.set, []⟩
    ERR_FAIL rfl rfl rfl

/-- C10: confirmed. The external-projection conversion round-trips,
`from(to(p)) = p`, for every projection — including one carrying addresses,
dhcp4, gateway and nameservers, and one with all fields absent — and `to`
stores the nameserver list under the `"addresses"` key, which `from`
recovers exactly. -/
theorem nicoutput_roundtrip (p : NicOutput) :
    NicOutput.fromNic p.to = p ∧
    (∀ ns, p.nameservers = some ns →
      p.to.nameservers = some [("addresses", ns), ("search", [])]) := by
  constructor
  · obtain ⟨addresses, dhcp4, gateway4, nameservers⟩ := p
    cases nameservers <;> simp [NicOutput.to, NicOutput.fromNic, assocGet]
  · intro ns h
    simp [NicOutput.to, h]

/-- Witness for C10's nameserver-key conjunct at a concrete projection. -/
theorem nicoutput_roundtrip_witness :
    (NicOutput.mk (some ["10.0.0.1/24"]) (some true) (some "10.0.0.254")
        (some ["8.8.8.8"])).to.nameservers =
      some [("addresses", ["8.8.8.8"]), ("search", [])] :=
  (nicoutput_roundtrip (NicOutput.mk (some ["10.0.0.1/24"]) (some true)
    (some "10.0.0.254") (some ["8.8.8.8"]))).2 ["8.8.8.8"] rfl

end Roxy
